import Mathlib

/-!
Shallow embedding of the tag-management slice of the
project-zombiod-save-auto-backup repository (frontend TypeScript:
src/types/tags.ts, src/hooks/useTags.ts, src/components/TagEditor.tsx,
src/components/TagPicker.tsx), together with a spec-modelled Tag Store
for the backend that is not part of the visible sources.

Pure functions of the source become Lean functions on `List Char` /
`String`; the async hook functions become explicit state-passing
functions over an abstract backend oracle; JavaScript `NaN` arising from
`parseInt` is modelled as `Option` (`none`), and IEEE doubles are
modelled by exact rationals (the claims exercised only depend on the
`NaN`-propagation path, where the model is exact).
-/

namespace PZTags

/-- Embeds the `Tag` interface of src/types/tags.ts: a name and a hex
color string. -/
structure Tag where
  name : String
  color : String
deriving DecidableEq, Repr

/-- Embeds the `TagTarget` tagged union of src/types/tags.ts: either a
backup of a save, or a save directory. -/
inductive TagTarget where
  | backup (saveName backupName : String)
  | save (relativePath : String)
deriving DecidableEq, Repr

/-- Embeds `tagTargetToKey` of src/types/tags.ts: the key is
`"backup:" + saveName + ":" + backupName` for a backup target and
`"save:" + relativePath` for a save target. -/
def tagTargetToKey : TagTarget → String
  | .backup saveName backupName => "backup:" ++ saveName ++ ":" ++ backupName
  | .save relativePath => "save:" ++ relativePath

/-- Hexadecimal digit test, the character class `[A-Fa-f0-9]` of the
regex in `isValidHexColor`. -/
def isHexDigitChar (c : Char) : Bool :=
  ('0' ≤ c && c ≤ '9') || ('A' ≤ c && c ≤ 'F') || ('a' ≤ c && c ≤ 'f')

/-- Embeds `isValidHexColor` of src/types/tags.ts: the test
`/^#([A-Fa-f0-9]{6}|[A-Fa-f0-9]{3})$/.test(color)`, i.e. a `#` followed
by exactly 6 or exactly 3 hex digits and nothing else. -/
def isValidHexColor (color : String) : Bool :=
  match color.data with
  | '#' :: rest => (rest.length == 6 || rest.length == 3) && rest.all isHexDigitChar
  | _ => false

/-- The hex-color pattern as the spec words it:
`^#([0-9A-Fa-f]{3}|[0-9A-Fa-f]{6})$` — a `#` followed by exactly 3 or
exactly 6 hexadecimal digits. Stated from the spec's words, to be
compared with the source's `isValidHexColor`. -/
def specHexColorPattern (s : String) : Prop :=
  ∃ ds : List Char,
    s.data = '#' :: ds ∧ (ds.length = 3 ∨ ds.length = 6) ∧
    ∀ c ∈ ds, isHexDigitChar c = true

/-- Whitespace recognised by JavaScript `trim` / `parseInt` (ASCII
whitespace plus no-break space and BOM). -/
def isJsWhitespaceChar (c : Char) : Bool :=
  c = ' ' || c = '\t' || c = '\n' || c = '\r' ||
  c = '\x0b' || c = '\x0c' || c = '\u00A0' || c = '\uFEFF'

/-- Model of JavaScript `String.prototype.trim`: drop leading and
trailing whitespace. -/
def jsTrim (s : String) : String :=
  ⟨((s.data.dropWhile isJsWhitespaceChar).reverse.dropWhile
      isJsWhitespaceChar).reverse⟩

/-- Model of `backgroundColor.replace("#", "")` in `shouldUseLightText`:
JavaScript `replace` with a string pattern removes only the first
occurrence. -/
def removeFirstHash : List Char → List Char
  | [] => []
  | c :: cs => if c = '#' then cs else c :: removeFirstHash cs

/-- Numeric value of a hex digit (only meaningful on hex digits). -/
def hexDigitVal (c : Char) : Nat :=
  if '0' ≤ c && c ≤ '9' then c.toNat - '0'.toNat
  else if 'A' ≤ c && c ≤ 'F' then c.toNat - 'A'.toNat + 10
  else c.toNat - 'a'.toNat + 10

/-- Value of the maximal leading run of hex digits; `none` when there is
no leading hex digit (JavaScript `NaN`). -/
def hexPrefixVal (l : List Char) : Option Nat :=
  match l.takeWhile isHexDigitChar with
  | [] => none
  | ds => some (ds.foldl (fun acc c => 16 * acc + hexDigitVal c) 0)

/-- Strip an optional `0x` / `0X` hex indicator, as JavaScript
`parseInt` does for radix 16. -/
def stripHexIndicator : List Char → List Char
  | '0' :: 'x' :: rest => rest
  | '0' :: 'X' :: rest => rest
  | l => l

/-- Model of JavaScript `parseInt(s, 16)`: skip leading whitespace, an
optional sign and an optional `0x` indicator, then read the maximal run
of hex digits; `none` models `NaN` (no digits at all). -/
def parseIntHex (l : List Char) : Option Int :=
  match l.dropWhile isJsWhitespaceChar with
  | '-' :: rest => (hexPrefixVal (stripHexIndicator rest)).map (fun n => -(n : Int))
  | '+' :: rest => (hexPrefixVal (stripHexIndicator rest)).map (fun n => (n : Int))
  | l1 => (hexPrefixVal (stripHexIndicator l1)).map (fun n => (n : Int))

/-- Embeds `shouldUseLightText` of src/types/tags.ts: strip the first
`#`, parse `substring(0,2)`, `substring(2,4)`, `substring(4,6)` as hex,
compare the W3C luminance with 0.5. A `none` component models `NaN`;
since every comparison with `NaN` is false in JavaScript, the result is
`false` whenever any component fails to parse. Rationals stand in for
IEEE doubles. -/
def shouldUseLightText (backgroundColor : String) : Bool :=
  let hex := removeFirstHash backgroundColor.data
  match parseIntHex (hex.take 2), parseIntHex ((hex.drop 2).take 2),
        parseIntHex ((hex.drop 4).take 2) with
  | some r, some g, some b =>
    decide ((((299 : ℚ) / 1000) * r + ((587 : ℚ) / 1000) * g +
             ((114 : ℚ) / 1000) * b) / 255 < 1 / 2)
  | _, _, _ => false

/-- Embeds `handleRemoveSelected` of src/components/TagEditor.tsx:
`prev.filter((t) => t.name !== tagName)`. -/
def handleRemoveSelected (tagName : String) (prev : List Tag) : List Tag :=
  prev.filter (fun t => t.name != tagName)

/-- Embeds `handleTagToggle` of src/components/TagEditor.tsx: if a tag
with the same name is selected, filter it out, otherwise append. -/
def handleTagToggle (tag : Tag) (prev : List Tag) : List Tag :=
  if prev.any (fun t => t.name == tag.name) then
    prev.filter (fun t => t.name != tag.name)
  else
    prev ++ [tag]

/-- Embeds the auto-select step of `handleCreateTag` in
src/components/TagEditor.tsx: after a successful create, append
`{ name, color }` unless a tag with that name is already selected. -/
def handleCreateTagSelect (name color : String) (selectedTags : List Tag) :
    List Tag :=
  if selectedTags.any (fun t => t.name == name) then selectedTags
  else selectedTags ++ [{ name := name, color := color }]

/-- Embeds the `tagNames` computation of `handleSave` in
src/components/TagEditor.tsx: `selectedTags.map((t) => t.name)`. -/
def handleSaveTagNames (selectedTags : List Tag) : List String :=
  selectedTags.map (fun t => t.name)

/-- One user interaction with the TagEditor selected-tags state. -/
inductive EditorEvent where
  | toggle (tag : Tag)
  | createSelect (name color : String)
  | removeSel (tagName : String)

/-- Applies one TagEditor handler to the selected-tags state. -/
def applyEditorEvent : EditorEvent → List Tag → List Tag
  | .toggle tag, sel => handleTagToggle tag sel
  | .createSelect n c, sel => handleCreateTagSelect n c sel
  | .removeSel n, sel => handleRemoveSelected n sel

/-- Applies a sequence of TagEditor handler invocations in order. -/
def applyEditorEvents (evs : List EditorEvent) (sel : List Tag) : List Tag :=
  evs.foldl (fun s e => applyEditorEvent e s) sel

/-- Embeds `handleCreateTag` of src/components/TagPicker.tsx as the pair
it passes to `onCreateTag`, or `none` when it returns without invoking
the callback: `name = newTagName.trim()`,
`color = customColor || newTagColor` (the empty string is the only falsy
string), early return on empty `name` or invalid color. -/
def pickerHandleCreateTag (newTagName customColor newTagColor : String) :
    Option (String × String) :=
  let name := jsTrim newTagName
  let color := if customColor = "" then newTagColor else customColor
  if name = "" then none
  else if !isValidHexColor color then none
  else some (name, color)

/-- Abstract backend oracle: the result each Tauri command would produce
when invoked (`Except.error` models a rejected invoke promise). -/
structure Backend where
  getAllTagsCmd : Except String (List Tag)
  createTagCmd : String → String → Except String Unit
  deleteTagCmd : String → Except String Unit
  getBackupTagsCmd : String → String → Except String (List Tag)
  addTagsToBackupCmd : String → String → List String → Except String Unit
  removeTagsFromBackupCmd : String → String → List String → Except String Unit
  getSaveTagsCmd : String → Except String (List Tag)
  addTagsToSaveCmd : String → List String → Except String Unit
  removeTagsFromSaveCmd : String → List String → Except String Unit

/-- State of the `useTags` hook: the cached `tags` list plus the
`loading` and `error` cells. -/
structure TagsState where
  tags : List Tag
  loading : Bool
  error : Option String
deriving DecidableEq, Repr

/-- State of the `useBackupTags` / `useSaveTags` hooks: `loading` and
`error` cells only. -/
structure OpState where
  loading : Bool
  error : Option String
deriving DecidableEq, Repr

/-- Embeds `loadAllTags` of src/hooks/useTags.ts as its net effect on the
hook state once the async function settles: on success the tags list is
replaced by the command result; on failure the error cell is set and the
tags list kept; errors are caught, never rethrown. -/
def loadAllTags (B : Backend) (st : TagsState) : TagsState :=
  match B.getAllTagsCmd with
  | .ok allTags => { tags := allTags, loading := false, error := none }
  | .error _ =>
    { tags := st.tags, loading := false, error := some "Failed to load tags" }

/-- Embeds `createTag` of src/hooks/useTags.ts: invoke
`create_tag_command`; on success reload all tags via `loadAllTags`; on
failure record an error message and rethrow. -/
def createTag (B : Backend) (name color : String) (st : TagsState) :
    TagsState × Except String Unit :=
  match B.createTagCmd name color with
  | .ok _ =>
    (loadAllTags B { tags := st.tags, loading := true, error := none }, .ok ())
  | .error e =>
    ({ tags := st.tags, loading := false, error := some "Failed to create tag" },
     .error e)

/-- Embeds `deleteTag` of src/hooks/useTags.ts: invoke
`delete_tag_command`; on success reload all tags via `loadAllTags`; on
failure record an error message and rethrow. -/
def deleteTag (B : Backend) (name : String) (st : TagsState) :
    TagsState × Except String Unit :=
  match B.deleteTagCmd name with
  | .ok _ =>
    (loadAllTags B { tags := st.tags, loading := true, error := none }, .ok ())
  | .error e =>
    ({ tags := st.tags, loading := false, error := some "Failed to delete tag" },
     .error e)

/-- Embeds `getBackupTags` of src/hooks/useTags.ts: on success return the
tags; on failure record an error message and return the empty list — the
failure is caught, never rethrown (the result is always `Except.ok`). -/
def getBackupTags (B : Backend) (saveName backupName : String) :
    OpState × Except String (List Tag) :=
  match B.getBackupTagsCmd saveName backupName with
  | .ok tags => ({ loading := false, error := none }, .ok tags)
  | .error _ =>
    ({ loading := false, error := some "Failed to get backup tags" }, .ok [])

/-- Embeds `addBackupTags` of src/hooks/useTags.ts: on failure record an
error message and rethrow. -/
def addBackupTags (B : Backend) (saveName backupName : String)
    (tagNames : List String) : OpState × Except String Unit :=
  match B.addTagsToBackupCmd saveName backupName tagNames with
  | .ok _ => ({ loading := false, error := none }, .ok ())
  | .error e =>
    ({ loading := false, error := some "Failed to add backup tags" }, .error e)

/-- Embeds `removeBackupTags` of src/hooks/useTags.ts: on failure record
an error message and rethrow. -/
def removeBackupTags (B : Backend) (saveName backupName : String)
    (tagNames : List String) : OpState × Except String Unit :=
  match B.removeTagsFromBackupCmd saveName backupName tagNames with
  | .ok _ => ({ loading := false, error := none }, .ok ())
  | .error e =>
    ({ loading := false, error := some "Failed to remove backup tags" },
     .error e)

/-- Embeds `getSaveTags` of src/hooks/useTags.ts: on success return the
tags; on failure record an error message and return the empty list — the
failure is caught, never rethrown (the result is always `Except.ok`). -/
def getSaveTags (B : Backend) (relativePath : String) :
    OpState × Except String (List Tag) :=
  match B.getSaveTagsCmd relativePath with
  | .ok tags => ({ loading := false, error := none }, .ok tags)
  | .error _ =>
    ({ loading := false, error := some "Failed to get save tags" }, .ok [])

/-- Embeds `addSaveTags` of src/hooks/useTags.ts: on failure record an
error message and rethrow. -/
def addSaveTags (B : Backend) (relativePath : String)
    (tagNames : List String) : OpState × Except String Unit :=
  match B.addTagsToSaveCmd relativePath tagNames with
  | .ok _ => ({ loading := false, error := none }, .ok ())
  | .error e =>
    ({ loading := false, error := some "Failed to add save tags" }, .error e)

/-- Embeds `removeSaveTags` of src/hooks/useTags.ts: on failure record an
error message and rethrow. -/
def removeSaveTags (B : Backend) (relativePath : String)
    (tagNames : List String) : OpState × Except String Unit :=
  match B.removeTagsFromSaveCmd relativePath tagNames with
  | .ok _ => ({ loading := false, error := none }, .ok ())
  | .error e =>
    ({ loading := false, error := some "Failed to remove save tags" }, .error e)

/-- Error taxonomy of the spec (section 7), minus the persistence-layer
failure which the claims do not touch. -/
inductive TagError where
  | EmptyName
  | InvalidColor
  | DuplicateTag
  | TagNotFound
deriving DecidableEq, Repr

/-- Modelled from the spec: the Tags Database aggregate (section 3) —
the tag registry plus the association index, the index stored in the
spec's equivalent view as a mapping from target key to list of tag
names. The Rust Tag Store backing the commands is not among the visible
sources. -/
structure TagsDatabase where
  tags : List Tag
  associations : List (String × List String)
deriving DecidableEq, Repr

/-- Modelled from the spec: `Registry.exists(name)` — case-sensitive
exact membership of a tag name in the registry. -/
def registryHasName (tags : List Tag) (name : String) : Bool :=
  tags.any (fun t => t.name == name)

/-- Modelled from the spec: `Registry.create(name, color)` — fails with
`EmptyName` when the name trims to empty, `InvalidColor` when the color
fails the hex pattern, `DuplicateTag` when the name exists; on success
inserts at the end (insertion order). -/
def registryCreate (tags : List Tag) (name color : String) :
    Except TagError (List Tag) :=
  if jsTrim name = "" then .error .EmptyName
  else if !isValidHexColor color then .error .InvalidColor
  else if registryHasName tags name then .error .DuplicateTag
  else .ok (tags ++ [{ name := name, color := color }])

/-- Modelled from the spec: `Registry.delete(name)` — fails with
`TagNotFound` when absent; on success removes the entry and does not
touch associations. -/
def registryDelete (tags : List Tag) (name : String) :
    Except TagError (List Tag) :=
  if registryHasName tags name then .ok (tags.filter (fun t => t.name != name))
  else .error .TagNotFound

/-- Modelled from the spec: `Index.add(T, N)` — idempotent insertion of
the pair (key, name) into the key-to-names view. -/
def indexAdd (assocs : List (String × List String)) (key name : String) :
    List (String × List String) :=
  if assocs.any (fun a => a.1 == key) then
    assocs.map (fun a =>
      if a.1 == key then
        (a.1, if a.2.contains name then a.2 else a.2 ++ [name])
      else a)
  else assocs ++ [(key, [name])]

/-- Modelled from the spec: `Index.remove(T, N)` — idempotent removal of
the pair (key, name); removing an absent association is a no-op. -/
def indexRemove (assocs : List (String × List String)) (key name : String) :
    List (String × List String) :=
  assocs.map (fun a =>
    if a.1 == key then (a.1, a.2.filter (fun n => n != name)) else a)

/-- Modelled from the spec: `Index.removeTagEverywhere(N)` — removes the
name from every target's set. -/
def removeTagEverywhere (assocs : List (String × List String))
    (name : String) : List (String × List String) :=
  assocs.map (fun a => (a.1, a.2.filter (fun n => n != name)))

/-- Modelled from the spec: `Index.targetsFor(N)` — the keys of every
target whose set contains the name (the reverse view). -/
def targetsFor (assocs : List (String × List String)) (name : String) :
    List String :=
  (assocs.filter (fun a => a.2.contains name)).map (fun a => a.1)

/-- Modelled from the spec: `TagStore.createTag` — delegates to
`Registry.create`; associations untouched. -/
def storeCreateTag (db : TagsDatabase) (name color : String) :
    Except TagError TagsDatabase :=
  (registryCreate db.tags name color).map
    (fun ts => { tags := ts, associations := db.associations })

/-- Modelled from the spec: `TagStore.deleteTag` — delegates to
`Registry.delete`; on success additionally removes the name from every
target's set. -/
def storeDeleteTag (db : TagsDatabase) (name : String) :
    Except TagError TagsDatabase :=
  (registryDelete db.tags name).map
    (fun ts =>
      { tags := ts, associations := removeTagEverywhere db.associations name })

/-- Modelled from the spec: `TagStore.addTagsToTarget` — fails the whole
call with `TagNotFound` when any name is absent from the registry
(validated before any mutation); otherwise adds every pair. -/
def storeAddTags (db : TagsDatabase) (target : TagTarget)
    (tagNames : List String) : Except TagError TagsDatabase :=
  if tagNames.all (fun n => registryHasName db.tags n) then
    .ok { tags := db.tags,
          associations :=
            tagNames.foldl (fun as n => indexAdd as (tagTargetToKey target) n)
              db.associations }
  else .error .TagNotFound

/-- Modelled from the spec: `TagStore.removeTagsFromTarget` — removes
each pair, idempotent on absent pairs, never fails on dangling names. -/
def storeRemoveTags (db : TagsDatabase) (target : TagTarget)
    (tagNames : List String) : Except TagError TagsDatabase :=
  .ok { tags := db.tags,
        associations :=
          tagNames.foldl (fun as n => indexRemove as (tagTargetToKey target) n)
            db.associations }

/-- Referential integrity (spec section 3): every tag name appearing in
any association exists in the registry. -/
def refIntegrity (db : TagsDatabase) : Prop :=
  ∀ a ∈ db.associations, ∀ n ∈ a.2, registryHasName db.tags n = true

instance (db : TagsDatabase) : Decidable (refIntegrity db) := by
  unfold refIntegrity
  infer_instance

/-- The no-separator assumption of the key scheme: the fields joined by
`:` in a backup key are free of `:`; a save target has no such field. -/
def backupFieldsColonFree : TagTarget → Bool
  | .backup saveName backupName =>
    saveName.data.all (fun c => c != ':') &&
      backupName.data.all (fun c => c != ':')
  | .save _ => true

/-- Concrete backend whose every command succeeds, returning one fixed
tag list. -/
def sampleBackend : Backend where
  getAllTagsCmd := .ok [{ name := "Important", color := "#EF4444" }]
  createTagCmd := fun _ _ => .ok ()
  deleteTagCmd := fun _ => .ok ()
  getBackupTagsCmd := fun _ _ => .ok []
  addTagsToBackupCmd := fun _ _ _ => .ok ()
  removeTagsFromBackupCmd := fun _ _ _ => .ok ()
  getSaveTagsCmd := fun _ => .ok []
  addTagsToSaveCmd := fun _ _ => .ok ()
  removeTagsFromSaveCmd := fun _ _ => .ok ()

/-- Concrete backend whose every command fails with the same message. -/
def failingBackend : Backend where
  getAllTagsCmd := .error "boom"
  createTagCmd := fun _ _ => .error "boom"
  deleteTagCmd := fun _ => .error "boom"
  getBackupTagsCmd := fun _ _ => .error "boom"
  addTagsToBackupCmd := fun _ _ _ => .error "boom"
  removeTagsFromBackupCmd := fun _ _ _ => .error "boom"
  getSaveTagsCmd := fun _ => .error "boom"
  addTagsToSaveCmd := fun _ _ => .error "boom"
  removeTagsFromSaveCmd := fun _ _ => .error "boom"

end PZTags

namespace PZTags

/-- Claim C4: `tagTargetToKey` is total, pure and deterministic — a Lean
function defined by structural case analysis, with no failure mode — and
returns exactly `"backup:" ++ saveName ++ ":" ++ backupName` for a
backup target and `"save:" ++ relativePath` for a save target. -/
theorem tagTargetToKey_total_shape :
    (∀ saveName backupName : String,
        tagTargetToKey (.backup saveName backupName) =
          "backup:" ++ saveName ++ ":" ++ backupName) ∧
    (∀ relativePath : String,
        tagTargetToKey (.save relativePath) = "save:" ++ relativePath) :=
  ⟨fun _ _ => rfl, fun _ => rfl⟩

/-- Claim C3: `isValidHexColor` accepts a string exactly when it matches
the pattern of the spec, a `#` followed by exactly 3 or exactly 6
hexadecimal digits; no valid 3- or 6-digit hex color is rejected and
every non-matching string is rejected. -/
theorem isValidHexColor_iff_specPattern (s : String) :
    isValidHexColor s = true ↔ specHexColorPattern s := by
  unfold isValidHexColor specHexColorPattern
  constructor
  · intro h
    split at h
    next rest heq =>
      refine ⟨rest, heq, ?_, ?_⟩
      · simp only [Bool.and_eq_true, Bool.or_eq_true, beq_iff_eq] at h
        rcases h.1 with h1 | h1
        · right; exact h1
        · left; exact h1
      · simp only [Bool.and_eq_true, List.all_eq_true] at h
        exact h.2
    next => exact absurd h (by simp)
  · rintro ⟨ds, hds, hlen, hall⟩
    rw [hds]
    simp only [Bool.and_eq_true, Bool.or_eq_true, beq_iff_eq, List.all_eq_true]
    exact ⟨hlen.symm.imp (fun h => h) (fun h => h), hall⟩

/-- Claim C7: removal of a selected tag is idempotent —
`handleRemoveSelected` with a name absent from the list leaves the list
unchanged, and applying it twice with the same name equals applying it
once. -/
theorem handleRemoveSelected_idempotent :
    (∀ (prev : List Tag) (tagName : String),
        (∀ t ∈ prev, t.name ≠ tagName) →
          handleRemoveSelected tagName prev = prev) ∧
    (∀ (prev : List Tag) (tagName : String),
        handleRemoveSelected tagName (handleRemoveSelected tagName prev) =
          handleRemoveSelected tagName prev) := by
  constructor
  · intro prev tagName h
    unfold handleRemoveSelected
    apply List.filter_eq_self.mpr
    intro t ht
    simpa using h t ht
  · intro prev tagName
    unfold handleRemoveSelected
    simp [List.filter_filter]

/-- Witness for C7: removing the absent name `"B"` from a one-element
list is a no-op. -/
theorem handleRemoveSelected_idempotent_witness :
    handleRemoveSelected "B" [{ name := "A", color := "#FFF" }] =
      [{ name := "A", color := "#FFF" }] :=
  handleRemoveSelected_idempotent.1 [{ name := "A", color := "#FFF" }] "B"
    (by decide)

/-- Claim C5: `handleCreateTag` of TagPicker passes a pair to
`onCreateTag` only when the trimmed name is non-empty and the effective
color (`customColor` if non-empty, else `newTagColor`) is a valid hex
color; with an empty trimmed name or an invalid color it returns without
invoking the callback. -/
theorem pickerHandleCreateTag_boundary
    (newTagName customColor newTagColor : String) :
    (∀ p, pickerHandleCreateTag newTagName customColor newTagColor = some p →
        p.1 = jsTrim newTagName ∧
        p.2 = (if customColor = "" then newTagColor else customColor) ∧
        p.1 ≠ "" ∧ isValidHexColor p.2 = true) ∧
    (jsTrim newTagName = "" ∨
        isValidHexColor
          (if customColor = "" then newTagColor else customColor) = false →
      pickerHandleCreateTag newTagName customColor newTagColor = none) := by
  unfold pickerHandleCreateTag
  constructor
  · intro p hp
    by_cases hnm : jsTrim newTagName = ""
    · simp [hnm] at hp
    · by_cases hcol :
        isValidHexColor
          (if customColor = "" then newTagColor else customColor) = true
      · simp [hnm, hcol] at hp
        subst hp
        exact ⟨rfl, rfl, hnm, hcol⟩
      · simp [hnm] at hp
        exact absurd hp.1 hcol
  · rintro (h | h)
    · simp [h]
    · simp [h]

/-- Witness for C5: the form data `" Boss "` / no custom color / blue
passes the pair `("Boss", "#3B82F6")` to the callback, and that pair has
a non-empty name and a valid color. -/
theorem pickerHandleCreateTag_boundary_witness :
    (("Boss", "#3B82F6") : String × String).1 = jsTrim " Boss " ∧
    (("Boss", "#3B82F6") : String × String).2 =
      (if ("" : String) = "" then "#3B82F6" else "") ∧
    (("Boss", "#3B82F6") : String × String).1 ≠ "" ∧
    isValidHexColor (("Boss", "#3B82F6") : String × String).2 = true :=
  (pickerHandleCreateTag_boundary " Boss " "" "#3B82F6").1 ("Boss", "#3B82F6")
    (by decide)

/-- Claim C6: when the backend command of `createTag` or `deleteTag`
succeeds, the hook resynchronizes its cached tags before returning:
`loadAllTags` runs, `get_all_tags_command` is invoked and its result
replaces the tags list, and the call returns success. -/
theorem mutation_resyncs_tags (B : Backend) (st : TagsState)
    (name color : String) (allTags : List Tag)
    (hget : B.getAllTagsCmd = .ok allTags) :
    (B.createTagCmd name color = .ok () →
        (createTag B name color st).1 =
          loadAllTags B { tags := st.tags, loading := true, error := none } ∧
        (createTag B name color st).1.tags = allTags ∧
        (createTag B name color st).2 = .ok ()) ∧
    (B.deleteTagCmd name = .ok () →
        (deleteTag B name st).1 =
          loadAllTags B { tags := st.tags, loading := true, error := none } ∧
        (deleteTag B name st).1.tags = allTags ∧
        (deleteTag B name st).2 = .ok ()) := by
  constructor
  · intro hc
    unfold createTag loadAllTags
    rw [hc, hget]
    simp
  · intro hd
    unfold deleteTag loadAllTags
    rw [hd, hget]
    simp

/-- Witness for C6: on a backend whose commands all succeed, `createTag`
leaves the cache equal to the backend's full tag list and returns
success. -/
theorem mutation_resyncs_tags_witness :
    ((createTag sampleBackend "Boss" "#3B82F6"
          { tags := [], loading := false, error := none }).1 =
        loadAllTags sampleBackend
          { tags := ([] : List Tag), loading := true, error := none } ∧
      (createTag sampleBackend "Boss" "#3B82F6"
          { tags := [], loading := false, error := none }).1.tags =
        [{ name := "Important", color := "#EF4444" }] ∧
      (createTag sampleBackend "Boss" "#3B82F6"
          { tags := [], loading := false, error := none }).2 = .ok ()) :=
  (mutation_resyncs_tags sampleBackend
      { tags := [], loading := false, error := none } "Boss" "#3B82F6"
      [{ name := "Important", color := "#EF4444" }] rfl).1 rfl

/-- Claim C9: reads and mutations are treated asymmetrically on failure —
`getBackupTags` and `getSaveTags` always return an `ok` result and on a
backend error return the empty list with an error message recorded,
while `createTag`, `deleteTag`, `addBackupTags`, `removeBackupTags`,
`addSaveTags` and `removeSaveTags` record an error message and rethrow
the backend failure. -/
theorem reads_swallow_mutations_rethrow :
    (∀ (B : Backend) (sn bn : String),
        ∃ ts, (getBackupTags B sn bn).2 = .ok ts) ∧
    (∀ (B : Backend) (rp : String), ∃ ts, (getSaveTags B rp).2 = .ok ts) ∧
    (∀ (B : Backend) (sn bn e : String),
        B.getBackupTagsCmd sn bn = .error e →
          getBackupTags B sn bn =
            ({ loading := false, error := some "Failed to get backup tags" },
             .ok [])) ∧
    (∀ (B : Backend) (rp e : String),
        B.getSaveTagsCmd rp = .error e →
          getSaveTags B rp =
            ({ loading := false, error := some "Failed to get save tags" },
             .ok [])) ∧
    (∀ (B : Backend) (st : TagsState) (n c e : String),
        B.createTagCmd n c = .error e →
          createTag B n c st =
            ({ tags := st.tags, loading := false,
               error := some "Failed to create tag" }, .error e)) ∧
    (∀ (B : Backend) (st : TagsState) (n e : String),
        B.deleteTagCmd n = .error e →
          deleteTag B n st =
            ({ tags := st.tags, loading := false,
               error := some "Failed to delete tag" }, .error e)) ∧
    (∀ (B : Backend) (sn bn : String) (ns : List String) (e : String),
        B.addTagsToBackupCmd sn bn ns = .error e →
          addBackupTags B sn bn ns =
            ({ loading := false, error := some "Failed to add backup tags" },
             .error e)) ∧
    (∀ (B : Backend) (sn bn : String) (ns : List String) (e : String),
        B.removeTagsFromBackupCmd sn bn ns = .error e →
          removeBackupTags B sn bn ns =
            ({ loading := false,
               error := some "Failed to remove backup tags" }, .error e)) ∧
    (∀ (B : Backend) (rp : String) (ns : List String) (e : String),
        B.addTagsToSaveCmd rp ns = .error e →
          addSaveTags B rp ns =
            ({ loading := false, error := some "Failed to add save tags" },
             .error e)) ∧
    (∀ (B : Backend) (rp : String) (ns : List String) (e : String),
        B.removeTagsFromSaveCmd rp ns = .error e →
          removeSaveTags B rp ns =
            ({ loading := false, error := some "Failed to remove save tags" },
             .error e)) := by
  refine ⟨?_, ?_, ?_, ?_, ?_, ?_, ?_, ?_, ?_, ?_⟩
  · intro B sn bn
    unfold getBackupTags
    cases B.getBackupTagsCmd sn bn <;> exact ⟨_, rfl⟩
  · intro B rp
    unfold getSaveTags
    cases B.getSaveTagsCmd rp <;> exact ⟨_, rfl⟩
  · intro B sn bn e h
    unfold getBackupTags
    rw [h]
  · intro B rp e h
    unfold getSaveTags
    rw [h]
  · intro B st n c e h
    unfold createTag
    rw [h]
  · intro B st n e h
    unfold deleteTag
    rw [h]
  · intro B sn bn ns e h
    unfold addBackupTags
    rw [h]
  · intro B sn bn ns e h
    unfold removeBackupTags
    rw [h]
  · intro B rp ns e h
    unfold addSaveTags
    rw [h]
  · intro B rp ns e h
    unfold removeSaveTags
    rw [h]

theorem data_of_backupLit :
    ("backup:" : String).data = ['b', 'a', 'c', 'k', 'u', 'p', ':'] := rfl

theorem data_of_saveLit : ("save:" : String).data = ['s', 'a', 'v', 'e', ':'] :=
  rfl

theorem data_of_colonLit : (":" : String).data = [':'] := rfl

theorem backupKey_data (s b : String) :
    (tagTargetToKey (.backup s b)).data =
      'b' :: 'a' :: 'c' :: 'k' :: 'u' :: 'p' :: ':' ::
        (s.data ++ ':' :: b.data) := by
  simp [tagTargetToKey, String.data_append, data_of_backupLit, data_of_colonLit]

theorem saveKey_data (p : String) :
    (tagTargetToKey (.save p)).data =
      's' :: 'a' :: 'v' :: 'e' :: ':' :: p.data := by
  simp [tagTargetToKey, String.data_append, data_of_saveLit]

theorem splitAtColon {l1 l2 r1 r2 : List Char}
    (h1 : ∀ c ∈ l1, c ≠ ':') (h2 : ∀ c ∈ l2, c ≠ ':')
    (h : l1 ++ ':' :: r1 = l2 ++ ':' :: r2) : l1 = l2 ∧ r1 = r2 := by
  induction l1 generalizing l2 with
  | nil =>
    cases l2 with
    | nil => simpa using h
    | cons b bs =>
      simp only [List.nil_append, List.cons_append, List.cons.injEq] at h
      exact absurd h.1.symm (h2 b (List.mem_cons_self b bs))
  | cons a as ih =>
    cases l2 with
    | nil =>
      simp only [List.nil_append, List.cons_append, List.cons.injEq] at h
      exact absurd h.1 (h1 a (List.mem_cons_self a as))
    | cons b bs =>
      simp only [List.cons_append, List.cons.injEq] at h
      obtain ⟨hab, htl⟩ := h
      have hrec :=
        ih (fun c hc => h1 c (List.mem_cons_of_mem a hc))
          (fun c hc => h2 c (List.mem_cons_of_mem b hc)) htl
      exact ⟨by rw [hab, hrec.1], hrec.2⟩

/-- Claim C2: under the no-separator assumption (no `saveName` or
`backupName` contains `:`), `tagTargetToKey` is injective on distinct
targets; and a backup key never equals a save key, for any field
values. -/
theorem tagTargetToKey_injective :
    (∀ t1 t2 : TagTarget, backupFieldsColonFree t1 = true →
        backupFieldsColonFree t2 = true → t1 ≠ t2 →
        tagTargetToKey t1 ≠ tagTargetToKey t2) ∧
    (∀ s b p : String,
        tagTargetToKey (.backup s b) ≠ tagTargetToKey (.save p)) := by
  have cross : ∀ s b p : String,
      tagTargetToKey (.backup s b) ≠ tagTargetToKey (.save p) := by
    intro s b p h
    have hd := congrArg String.data h
    rw [backupKey_data, saveKey_data] at hd
    simp at hd
  refine ⟨?_, cross⟩
  intro t1 t2 h1 h2 hne heq
  cases t1 with
  | backup s1 b1 =>
    cases t2 with
    | backup s2 b2 =>
      have hd := congrArg String.data heq
      rw [backupKey_data, backupKey_data] at hd
      simp only [List.cons.injEq, true_and] at hd
      unfold backupFieldsColonFree at h1 h2
      simp only [Bool.and_eq_true, List.all_eq_true, bne_iff_ne, ne_eq] at h1 h2
      obtain ⟨hs, hb⟩ := splitAtColon h1.1 h2.1 hd
      exact hne (by rw [String.ext hs, String.ext hb])
    | save p2 => exact cross s1 b1 p2 heq
  | save p1 =>
    cases t2 with
    | backup s2 b2 => exact cross s2 b2 p1 heq.symm
    | save p2 =>
      have hd := congrArg String.data heq
      rw [saveKey_data, saveKey_data] at hd
      simp only [List.cons.injEq, true_and] at hd
      exact hne (by rw [String.ext hd])

/-- Witness for C2: two backups of the same save with different (and
colon-free) backup names get different keys. -/
theorem tagTargetToKey_injective_witness :
    tagTargetToKey (.backup "world1" "b1") ≠
      tagTargetToKey (.backup "world1" "b2") :=
  tagTargetToKey_injective.1 (.backup "world1" "b1") (.backup "world1" "b2")
    (by decide) (by decide) (by decide)

/-- Claim C8: `shouldUseLightText` is total — it returns a boolean on
every string — and on every valid 3-digit hex color it returns `false`:
the blue component is parsed from the empty `substring(4,6)`, giving
`NaN`, and a comparison with `NaN` never holds. -/
theorem shouldUseLightText_threeDigit_false :
    (∀ s : String,
        shouldUseLightText s = true ∨ shouldUseLightText s = false) ∧
    (∀ s : String, isValidHexColor s = true → s.data.length = 4 →
        shouldUseLightText s = false) := by
  constructor
  · intro s
    cases hb : shouldUseLightText s
    · exact Or.inr rfl
    · exact Or.inl rfl
  · intro s hv hlen
    unfold isValidHexColor at hv
    split at hv
    next rest heq =>
      have hr : rest.length = 3 := by
        rw [heq] at hlen
        simpa using hlen
      match rest, hr with
      | [c1, c2, c3], _ =>
        unfold shouldUseLightText
        rw [heq]
        simp only [removeFirstHash, if_pos]
        cases hA : parseIntHex ([c1, c2, c3].take 2) <;>
          cases hB : parseIntHex (([c1, c2, c3].drop 2).take 2) <;>
            simp [hA, hB, parseIntHex, hexPrefixVal, stripHexIndicator,
              isJsWhitespaceChar]
    next => exact absurd hv (by simp)

/-- Witness for C8: the valid 3-digit color `"#FFF"` gets dark text. -/
theorem shouldUseLightText_threeDigit_false_witness :
    shouldUseLightText "#FFF" = false :=
  shouldUseLightText_threeDigit_false.2 "#FFF" (by decide) (by decide)

/-- Witness for C9: on the failing backend, `addBackupTags` records its
error message and rethrows the backend error. -/
theorem reads_swallow_mutations_rethrow_witness :
    addBackupTags failingBackend "w1" "b1" ["A"] =
      ({ loading := false, error := some "Failed to add backup tags" },
       .error "boom") :=
  reads_swallow_mutations_rethrow.2.2.2.2.2.2.1 failingBackend "w1" "b1"
    ["A"] "boom" rfl

theorem nodup_names_filter (p : Tag → Bool) (sel : List Tag)
    (h : (sel.map Tag.name).Nodup) : ((sel.filter p).map Tag.name).Nodup :=
  h.sublist ((List.filter_sublist sel).map Tag.name)

theorem nodup_names_append_absent (tag : Tag) (sel : List Tag)
    (h : (sel.map Tag.name).Nodup)
    (habs : ¬sel.any (fun t => t.name == tag.name) = true) :
    ((sel ++ [tag]).map Tag.name).Nodup := by
  simp only [List.map_append, List.map_cons, List.map_nil]
  rw [List.nodup_append]
  refine ⟨h, List.nodup_singleton _, ?_⟩
  intro a ha hb
  simp only [List.mem_singleton] at hb
  subst hb
  apply habs
  rw [List.any_eq_true]
  obtain ⟨t, ht, hname⟩ := List.mem_map.mp ha
  exact ⟨t, ht, by rw [hname, beq_self_eq_true]⟩

theorem nodup_names_event (e : EditorEvent) (sel : List Tag)
    (h : (sel.map Tag.name).Nodup) :
    ((applyEditorEvent e sel).map Tag.name).Nodup := by
  cases e with
  | toggle tag =>
    simp only [applyEditorEvent]
    unfold handleTagToggle
    by_cases hc : sel.any (fun t => t.name == tag.name) = true
    · rw [if_pos hc]
      exact nodup_names_filter _ _ h
    · rw [if_neg hc]
      exact nodup_names_append_absent tag sel h hc
  | createSelect n c =>
    simp only [applyEditorEvent]
    unfold handleCreateTagSelect
    by_cases hc : sel.any (fun t => t.name == n) = true
    · rw [if_pos hc]
      exact h
    · rw [if_neg hc]
      exact nodup_names_append_absent { name := n, color := c } sel h hc
  | removeSel n =>
    simp only [applyEditorEvent]
    unfold handleRemoveSelected
    exact nodup_names_filter _ _ h

theorem nodup_names_events (evs : List EditorEvent) (sel : List Tag)
    (h : (sel.map Tag.name).Nodup) :
    ((applyEditorEvents evs sel).map Tag.name).Nodup := by
  induction evs generalizing sel with
  | nil => simpa [applyEditorEvents] using h
  | cons e es ih =>
    have hstep : applyEditorEvents (e :: es) sel =
        applyEditorEvents es (applyEditorEvent e sel) := rfl
    rw [hstep]
    exact ih _ (nodup_names_event e sel h)

/-- Claim C10: if the selected-tags list starts with pairwise-distinct
names, then every TagEditor handler (`handleTagToggle`, the auto-select
of `handleCreateTag`, `handleRemoveSelected`) preserves that invariant,
so any handler sequence does, and the `tagNames` sequence `handleSave`
passes to `onSave` contains no duplicate names. -/
theorem editor_selected_nodup (evs : List EditorEvent) (init : List Tag)
    (h : (init.map Tag.name).Nodup) :
    ((applyEditorEvents evs init).map Tag.name).Nodup ∧
    (handleSaveTagNames (applyEditorEvents evs init)).Nodup := by
  have hn := nodup_names_events evs init h
  exact ⟨hn, by simpa [handleSaveTagNames] using hn⟩

/-- Witness for C10: a toggle, an auto-selected create and a removal,
starting from one selected tag, end with duplicate-free names. -/
theorem editor_selected_nodup_witness :
    ((applyEditorEvents
        [EditorEvent.toggle { name := "A", color := "#FFF" },
         EditorEvent.createSelect "B" "#000000",
         EditorEvent.removeSel "A"]
        [{ name := "C", color := "#EF4444" }]).map Tag.name).Nodup ∧
    (handleSaveTagNames
        (applyEditorEvents
          [EditorEvent.toggle { name := "A", color := "#FFF" },
           EditorEvent.createSelect "B" "#000000",
           EditorEvent.removeSel "A"]
          [{ name := "C", color := "#EF4444" }])).Nodup :=
  editor_selected_nodup
    [EditorEvent.toggle { name := "A", color := "#FFF" },
     EditorEvent.createSelect "B" "#000000",
     EditorEvent.removeSel "A"]
    [{ name := "C", color := "#EF4444" }] (by decide)

theorem registryCreate_ok {tags : List Tag} {name color : String}
    {ts : List Tag} (h : registryCreate tags name color = .ok ts) :
    ts = tags ++ [{ name := name, color := color }] := by
  unfold registryCreate at h
  split at h
  · simp at h
  · split at h
    · simp at h
    · split at h
      · simp at h
      · simpa using h.symm

theorem registryDelete_ok {tags : List Tag} {name : String} {ts : List Tag}
    (h : registryDelete tags name = .ok ts) :
    ts = tags.filter (fun t => t.name != name) ∧
      registryHasName tags name = true := by
  unfold registryDelete at h
  split at h
  next hc => exact ⟨by simpa using h.symm, hc⟩
  next => simp at h

theorem registryHasName_append (tags : List Tag) (t : Tag) (n : String)
    (h : registryHasName tags n = true) :
    registryHasName (tags ++ [t]) n = true := by
  unfold registryHasName at *
  rw [List.any_append]
  simp [h]

theorem registryHasName_filter {tags : List Tag} {name n : String}
    (h : registryHasName tags n = true) (hne : n ≠ name) :
    registryHasName (tags.filter (fun t => t.name != name)) n = true := by
  unfold registryHasName at *
  rw [List.any_eq_true] at *
  obtain ⟨t, ht, hn⟩ := h
  refine ⟨t, List.mem_filter.mpr ⟨ht, ?_⟩, hn⟩
  have heq : t.name = n := by simpa using hn
  simp [heq, hne]

theorem registryHasName_filter_self (tags : List Tag) (name : String) :
    registryHasName (tags.filter (fun t => t.name != name)) name = false := by
  unfold registryHasName
  rw [Bool.eq_false_iff]
  intro h
  obtain ⟨t, ht, hn⟩ := List.any_eq_true.mp h
  have hmem := List.mem_filter.mp ht
  have heq : t.name = name := by simpa using hn
  simp [heq] at hmem

theorem removeTagEverywhere_mem_names {assocs : List (String × List String)}
    {name : String} {a : String × List String} {n : String}
    (ha : a ∈ removeTagEverywhere assocs name) (hn : n ∈ a.2) :
    (∃ a0 ∈ assocs, n ∈ a0.2) ∧ n ≠ name := by
  unfold removeTagEverywhere at ha
  obtain ⟨a0, ha0, rfl⟩ := List.mem_map.mp ha
  have hm := List.mem_filter.mp hn
  exact ⟨⟨a0, ha0, hm.1⟩, by simpa using hm.2⟩

theorem targetsFor_removeTagEverywhere (assocs : List (String × List String))
    (name : String) :
    targetsFor (removeTagEverywhere assocs name) name = [] := by
  unfold targetsFor
  have h : (removeTagEverywhere assocs name).filter
      (fun a => a.2.contains name) = [] := by
    apply List.filter_eq_nil_iff.mpr
    intro a ha
    obtain ⟨a0, _, rfl⟩ := List.mem_map.mp ha
    simp
  rw [h]
  rfl

theorem indexAdd_mem_names {assocs : List (String × List String)}
    {key name : String} {a : String × List String} {n : String}
    (ha : a ∈ indexAdd assocs key name) (hn : n ∈ a.2) :
    (∃ a0 ∈ assocs, n ∈ a0.2) ∨ n = name := by
  unfold indexAdd at ha
  split at ha
  · obtain ⟨a0, ha0, rfl⟩ := List.mem_map.mp ha
    split at hn
    · split at hn
      · exact .inl ⟨a0, ha0, hn⟩
      · rcases List.mem_append.mp hn with h | h
        · exact .inl ⟨a0, ha0, h⟩
        · exact .inr (by simpa using h)
    · exact .inl ⟨a0, ha0, hn⟩
  · rcases List.mem_append.mp ha with h | h
    · exact .inl ⟨a, h, hn⟩
    · have : a = (key, [name]) := by simpa using h
      subst this
      exact .inr (by simpa using hn)

theorem foldl_indexAdd_mem_names {key : String} (tagNames : List String) :
    ∀ (assocs : List (String × List String)) (a : String × List String)
      (n : String),
      a ∈ tagNames.foldl (fun as m => indexAdd as key m) assocs → n ∈ a.2 →
      (∃ a0 ∈ assocs, n ∈ a0.2) ∨ n ∈ tagNames := by
  induction tagNames with
  | nil =>
    intro assocs a n ha hn
    exact .inl ⟨a, ha, hn⟩
  | cons m ms ih =>
    intro assocs a n ha hn
    rw [List.foldl_cons] at ha
    rcases ih (indexAdd assocs key m) a n ha hn with ⟨a0, ha0, hn0⟩ | h
    · rcases indexAdd_mem_names ha0 hn0 with h | h
      · exact .inl h
      · exact .inr (by simp [h])
    · exact .inr (by simp [h])

theorem indexRemove_mem_names {assocs : List (String × List String)}
    {key name : String} {a : String × List String} {n : String}
    (ha : a ∈ indexRemove assocs key name) (hn : n ∈ a.2) :
    ∃ a0 ∈ assocs, n ∈ a0.2 := by
  unfold indexRemove at ha
  obtain ⟨a0, ha0, rfl⟩ := List.mem_map.mp ha
  split at hn
  · exact ⟨a0, ha0, (List.mem_filter.mp hn).1⟩
  · exact ⟨a0, ha0, hn⟩

theorem foldl_indexRemove_mem_names {key : String} (tagNames : List String) :
    ∀ (assocs : List (String × List String)) (a : String × List String)
      (n : String),
      a ∈ tagNames.foldl (fun as m => indexRemove as key m) assocs →
      n ∈ a.2 → ∃ a0 ∈ assocs, n ∈ a0.2 := by
  induction tagNames with
  | nil =>
    intro assocs a n ha hn
    exact ⟨a, ha, hn⟩
  | cons m ms ih =>
    intro assocs a n ha hn
    rw [List.foldl_cons] at ha
    obtain ⟨a0, ha0, hn0⟩ := ih (indexRemove assocs key m) a n ha hn
    exact indexRemove_mem_names ha0 hn0

/-- Claim C1: every committing Tag Store operation preserves referential
integrity — every tag name in any association exists in the registry —
and a successful `deleteTag(name)` removes the name from the registry
and from every target's set: afterwards the registry has no entry named
`name` and `targetsFor(name)` is empty. -/
theorem tagStore_integrity :
    (∀ (db : TagsDatabase) (name color : String) (db' : TagsDatabase),
        refIntegrity db → storeCreateTag db name color = .ok db' →
        refIntegrity db') ∧
    (∀ (db : TagsDatabase) (name : String) (db' : TagsDatabase),
        refIntegrity db → storeDeleteTag db name = .ok db' →
        refIntegrity db' ∧ registryHasName db'.tags name = false ∧
          targetsFor db'.associations name = []) ∧
    (∀ (db : TagsDatabase) (target : TagTarget) (tagNames : List String)
        (db' : TagsDatabase),
        refIntegrity db → storeAddTags db target tagNames = .ok db' →
        refIntegrity db') ∧
    (∀ (db : TagsDatabase) (target : TagTarget) (tagNames : List String)
        (db' : TagsDatabase),
        refIntegrity db → storeRemoveTags db target tagNames = .ok db' →
        refIntegrity db') := by
  refine ⟨?_, ?_, ?_, ?_⟩
  · intro db name color db' hint hok
    unfold storeCreateTag at hok
    cases hc : registryCreate db.tags name color with
    | error e => rw [hc] at hok; simp [Except.map] at hok
    | ok ts =>
      rw [hc] at hok
      simp only [Except.map, Except.ok.injEq] at hok
      subst hok
      intro a ha n hn
      have hold := hint a ha n hn
      rw [registryCreate_ok hc]
      exact registryHasName_append db.tags _ n hold
  · intro db name db' hint hok
    unfold storeDeleteTag at hok
    cases hc : registryDelete db.tags name with
    | error e => rw [hc] at hok; simp [Except.map] at hok
    | ok ts =>
      rw [hc] at hok
      simp only [Except.map, Except.ok.injEq] at hok
      subst hok
      obtain ⟨hts, _⟩ := registryDelete_ok hc
      subst hts
      refine ⟨?_, registryHasName_filter_self db.tags name,
        targetsFor_removeTagEverywhere db.associations name⟩
      intro a ha n hn
      obtain ⟨⟨a0, ha0, hn0⟩, hne⟩ := removeTagEverywhere_mem_names ha hn
      exact registryHasName_filter (hint a0 ha0 n hn0) hne
  · intro db target tagNames db' hint hok
    unfold storeAddTags at hok
    split at hok
    next hall =>
      simp only [Except.ok.injEq] at hok
      subst hok
      intro a ha n hn
      rcases foldl_indexAdd_mem_names tagNames db.associations a n ha hn with
        ⟨a0, ha0, hn0⟩ | h
      · exact hint a0 ha0 n hn0
      · exact List.all_eq_true.mp hall n h
    next => simp at hok
  · intro db target tagNames db' hint hok
    unfold storeRemoveTags at hok
    simp only [Except.ok.injEq] at hok
    subst hok
    intro a ha n hn
    obtain ⟨a0, ha0, hn0⟩ :=
      foldl_indexRemove_mem_names tagNames db.associations a n ha hn
    exact hint a0 ha0 n hn0

/-- Witness for C1: deleting `"Important"` from a one-tag database with
one association leaves an integral database where the tag no longer
exists and no target carries it. -/
theorem tagStore_integrity_witness :
    refIntegrity
      ({ tags := [], associations := [("save:world1", [])] } :
        TagsDatabase) ∧
    registryHasName
      ({ tags := [], associations := [("save:world1", [])] } :
        TagsDatabase).tags "Important" = false ∧
    targetsFor
      ({ tags := [], associations := [("save:world1", [])] } :
        TagsDatabase).associations "Important" = [] :=
  tagStore_integrity.2.1
    { tags := [{ name := "Important", color := "#EF4444" }],
      associations := [("save:world1", ["Important"])] }
    "Important"
    { tags := [], associations := [("save:world1", [])] }
    (by decide) rfl

end PZTags
